import Mathlib

/-!
# Verification of the Capability Catalog & Approval-Gated Action Broker

Shallow embedding of the core of `hit-feature-pack-ai-core`:

* the policy switches (`ai-policy.js`),
* the action broker single call and batch call (`httpRequest`, `httpBulk`
  of the execute route),
* the capability catalog name generation (`methodNameFor` of
  `ai-methods.ts`),
* the relevance scorer (`normalize`, `entityBoost`, `score` of the
  methods-search route),
* the discovery cache logic (`discoverAppApiEndpoints` of
  `ai-endpoints.ts`).

Transport-level concerns (actual network fetch, URL building with an
origin, header forwarding) are abstracted: the upstream application is a
pure function from (method, path) to an HTTP status, and the request body
attachment is recorded as a boolean on the executed result.  The process
environment is an explicit record.  JavaScript numbers are modelled as
`Int` (all values in play are small integers), with `Math.max(0, _)`
rendered as `max 0 _`.
-/

set_option autoImplicit false

namespace AiCore

/-! ### String primitives

Structural (kernel-reducible) versions of the JavaScript string
operations used by the source: uppercase/lowercase, prefix test,
substring test (`String.prototype.includes`), split on a character
predicate, and join.  All operate on the underlying character list. -/

/-- JS `toUpperCase` (ASCII, which is all the source feeds it). -/
def strUpper (s : String) : String := ⟨s.data.map Char.toUpper⟩

/-- JS `toLowerCase` (ASCII). -/
def strLower (s : String) : String := ⟨s.data.map Char.toLower⟩

/-- JS `startsWith`. -/
def strStartsWith (s pre : String) : Bool := pre.data.isPrefixOf s.data

/-- Infix test on character lists, structurally recursive. -/
def listInfix (n : List Char) : List Char → Bool
  | [] => n.isEmpty
  | c :: t => n.isPrefixOf (c :: t) || listInfix n t

/-- JS `hay.includes(needle)`. -/
def strIncludes (hay needle : String) : Bool := listInfix needle.data hay.data

/-- Split a character list at every character satisfying `p`, keeping
empty pieces (JS `split` semantics). -/
def splitChars (p : Char → Bool) : List Char → List (List Char)
  | [] => [[]]
  | c :: t =>
    let r := splitChars p t
    if p c then [] :: r
    else
      match r with
      | [] => [[c]]
      | h :: t2 => (c :: h) :: t2

/-- JS `s.split(...)` on a character predicate. -/
def strSplitOn (s : String) (p : Char → Bool) : List String :=
  (splitChars p s.data).map String.mk

/-- Join a list of strings with a separator. -/
def joinWith (sep : String) : List String → String
  | [] => ""
  | [x] => x
  | x :: y :: t => x ++ sep ++ joinWith sep (y :: t)

/-- Process environment as read by `ai-policy.js`: `NODE_ENV`,
`HIT_AI_AUTO_APPROVE_WRITES`, `HIT_AI_AUTO_APPROVE_DELETE`.
`none` models an unset variable. -/
structure Env where
  nodeEnv : Option String
  hitAiAutoApproveWrites : Option String
  hitAiAutoApproveDelete : Option String
deriving DecidableEq, Repr

/-- `autoApproveWritesEnabled` from `ai-policy.js`:
`process.env.NODE_ENV === 'development' || process.env.HIT_AI_AUTO_APPROVE_WRITES === '1'`. -/
def autoApproveWritesEnabled (e : Env) : Bool :=
  e.nodeEnv == some "development" || e.hitAiAutoApproveWrites == some "1"

/-- `autoApproveDeleteEnabled` from `ai-policy.js`:
`process.env.HIT_AI_AUTO_APPROVE_DELETE === '1'`. -/
def autoApproveDeleteEnabled (e : Env) : Bool :=
  e.hitAiAutoApproveDelete == some "1"

/-- Input of the single-call broker tool `http.request`.  `method` and
`path` are `Option String` (`none` models an absent or non-string JSON
field); `query` and `body` are carried as opaque optional payloads;
`approved` is the result of `Boolean(input.approved)`. -/
structure SingleInput where
  method : Option String
  path : Option String
  query : Option String
  body : Option String
  approved : Bool
deriving DecidableEq, Repr

/-- The draft input echoed back by a `requiresApproval` response:
the normalized method and path, the original query and body, and
`approved: false`. -/
structure DraftInput where
  method : String
  path : String
  query : Option String
  body : Option String
  approved : Bool
deriving DecidableEq, Repr

/-- Body of a single-call broker response: a validation error
(`{error}`), a draft (`{requiresApproval: true, draft: {toolName, input}}`),
or an executed call (`{status, url, method, response}`; the boolean records
whether a request body was attached to the outgoing call, which the source
does exactly when the method is not GET). -/
inductive RespBody where
  | err (msg : String)
  | draft (toolName : String) (dinput : DraftInput)
  | exec (status : Nat) (method : String) (path : String) (bodyAttached : Bool)
deriving DecidableEq, Repr

/-- A broker response: outer HTTP status plus body. -/
structure HttpResp where
  status : Nat
  body : RespBody
deriving DecidableEq, Repr

/-- Lines 7-8 of the execute route: uppercase a string method, default
anything absent or unrecognized to GET. -/
def normMethod (m : Option String) : String :=
  let methodRaw := match m with
    | some s => strUpper s
    | none => "GET"
  if ["GET", "POST", "PUT", "PATCH", "DELETE"].contains methodRaw then methodRaw else "GET"

/-- `httpRequest` of the execute route.  `fetch` abstracts the upstream
application: given the outgoing method and path it yields the upstream
HTTP status.  Mirrors the source order: path-prefix validation, AI
control-plane rejection, approval gate, then execution. -/
def httpRequest (env : Env) (fetch : String → String → Nat) (inp : SingleInput) : HttpResp :=
  let method := normMethod inp.method
  let pathRaw := inp.path.getD ""
  let approved := inp.approved
  if !strStartsWith pathRaw "/api/" then
    { status := 400, body := .err "path must start with '/api/'" }
  else if strStartsWith pathRaw "/api/ai/" then
    { status := 400, body := .err "Refusing to call /api/ai/* endpoints" }
  else
    let requiresApproval := method != "GET"
    let autoApprove := autoApproveWritesEnabled env
    let forceApprove := method == "DELETE" && !autoApproveDeleteEnabled env
    if requiresApproval && !approved && (forceApprove || !autoApprove) then
      { status := 200
        body := .draft "http.request"
          { method := method, path := pathRaw, query := inp.query, body := inp.body,
            approved := false } }
    else
      { status := 200
        body := .exec (fetch method pathRaw) method pathRaw (method != "GET") }

/-- One entry of a bulk request. -/
structure BulkEntry where
  method : Option String
  path : Option String
  query : Option String
  body : Option String
deriving DecidableEq, Repr

/-- Body of a bulk broker response: a validation error, a whole-batch
draft (`{requests, approved:false}` echoed), or the aggregate
`{status, ok, failed, results}`. -/
inductive BulkBody where
  | err (msg : String)
  | draft (toolName : String) (reqs : List BulkEntry)
  | done (status : Nat) (ok : Nat) (failed : Nat) (results : List RespBody)
deriving DecidableEq, Repr

/-- A bulk broker response: outer HTTP status plus body. -/
structure BulkResp where
  status : Nat
  body : BulkBody
deriving DecidableEq, Repr

/-- `res.body?.status` as used by the bulk loop: only an executed call's
body carries a `status` field. -/
def bodyStatus : RespBody → Option Nat
  | .exec st _ _ _ => some st
  | _ => none

/-- The bulk execution loop: each entry is run as an already-approved
single call, in order; an entry counts as ok iff its body status is a
2xx.  Returns (results, ok, failed). -/
def runBulk (env : Env) (fetch : String → String → Nat) :
    List BulkEntry → List RespBody × Nat × Nat
  | [] => ([], 0, 0)
  | r :: rest =>
    let b := (httpRequest env fetch
      { method := r.method, path := r.path, query := r.query, body := r.body,
        approved := true }).body
    let succ := match bodyStatus b with
      | some st => decide (200 ≤ st) && decide (st < 300)
      | none => false
    let acc := runBulk env fetch rest
    (b :: acc.1, (if succ then acc.2.1 + 1 else acc.2.1),
      (if succ then acc.2.2 else acc.2.2 + 1))

/-- `httpBulk` of the execute route: size validation (1 to 50 entries),
one approval decision for the whole batch (`anyWrite`/`anyDelete`
computed from the raw entry methods), then sequential execution with
per-entry ok/failed accounting and aggregate status 200 or 207. -/
def httpBulk (env : Env) (fetch : String → String → Nat)
    (reqs : List BulkEntry) (approved : Bool) : BulkResp :=
  if reqs.length = 0 then
    { status := 400, body := .err "requests[] is required" }
  else if reqs.length > 50 then
    { status := 400, body := .err "Too many requests (max 50)" }
  else
    let autoApprove := autoApproveWritesEnabled env
    let anyWrite := reqs.any (fun r => strUpper (r.method.getD "") != "GET")
    let anyDelete := reqs.any (fun r => strUpper (r.method.getD "") == "DELETE")
    let forceApprove := anyDelete && !autoApproveDeleteEnabled env
    if anyWrite && !approved && (forceApprove || !autoApprove) then
      { status := 200, body := .draft "http.bulk" reqs }
    else
      let acc := runBulk env fetch reqs
      { status := 200
        body := .done (if acc.2.2 = 0 then 200 else 207) acc.2.1 acc.2.2 acc.1 }

/-! ### Capability catalog (`ai-methods.ts`) -/

/-- The catalog's unit of record (`MethodSpec` in `ai-methods.ts`). -/
structure MethodSpec where
  name : String
  method : String
  pathTemplate : String
  description : String
  pathParams : List String
  requiredBodyFields : Option (List String)
  readOnly : Bool
deriving DecidableEq, Repr

/-- Split a character list at the first `]`, returning the part before
it and the part after it; `none` when there is no `]`. -/
def splitFirstRBracket : List Char → Option (List Char × List Char)
  | [] => none
  | c :: t =>
    if c = ']' then some ([], t)
    else (splitFirstRBracket t).map (fun p => (c :: p.1, p.2))

/-- The regex replacement of every match of a left bracket, one or more
non-right-bracket characters, and a right bracket by the inner
characters, fuelled by the list length (each step consumes at least one
character, so the fuel never runs out on the initial call). -/
def stripBracketsGo : Nat → List Char → List Char
  | 0, l => l
  | _ + 1, [] => []
  | fuel + 1, c :: t =>
    if c = '[' then
      match splitFirstRBracket t with
      | some (content, after) =>
        if content.isEmpty then c :: stripBracketsGo fuel t
        else content ++ stripBracketsGo fuel after
      | none => c :: stripBracketsGo fuel t
    else c :: stripBracketsGo fuel t

/-- JS `replace(/\x5b([^\x5d]+)\x5d/g, p1)`: drop the brackets around
every bracketed named path segment. -/
def stripBrackets (l : List Char) : List Char := stripBracketsGo l.length l

/-- The `cleaned` value of `methodNameFor`: drop one leading slash,
unwrap bracketed segments, replace every run of non-alphanumeric
characters by a single underscore, trim leading and trailing
underscores, and lowercase.  The replace-collapse-trim chain of the
source is rendered as split, drop empty pieces, and join with a single
underscore, which computes the same string. -/
def cleanedPath (pathTemplate : String) : String :=
  let noLead : String :=
    if strStartsWith pathTemplate "/" then ⟨pathTemplate.data.drop 1⟩ else pathTemplate
  let unbracketed : String := ⟨stripBrackets noLead.data⟩
  strLower (joinWith "_"
    ((strSplitOn unbracketed (fun c => !c.isAlphanum)).filter (fun t => t != "")))

/-- `methodNameFor` from `ai-methods.ts`. -/
def methodNameFor (pathTemplate method : String) : String :=
  "route_" ++ cleanedPath pathTemplate ++ "__" ++ strUpper method

/-! ### Relevance scorer (methods-search route) -/

/-- `normalize` of the methods-search route: lowercase, replace every
run of characters outside lowercase letters and digits by a single
space, trim. -/
def normalize (s : String) : String :=
  joinWith " "
    ((strSplitOn (strLower s) (fun c => !(c.isLower || c.isDigit))).filter (fun t => t != ""))

/-- The stopword set of the methods-search route. -/
def STOPWORDS : List String :=
  ["a", "an", "and", "are", "as", "at", "be", "but", "by", "can", "could",
   "did", "do", "does", "for", "from", "get", "give", "have", "how", "i",
   "in", "is", "it", "just", "list", "me", "my", "of", "on", "or",
   "please", "show", "tell", "that", "the", "there", "this", "to", "up",
   "what", "when", "where", "who", "with", "would", "you", "your"]

/-- `entityBoost` of the methods-search route: for each of the five
tracked entity families, add 8 when the query mentions the entity and
the method's path contains the entity's path segment.  The result is a
JS number, modelled as `Int`. -/
def entityBoost (q : String) (m : MethodSpec) : Int :=
  let qt := " " ++ q ++ " "
  let p := strLower m.pathTemplate
  let b : Int := 0
  let b := if (strIncludes qt " contact " || strIncludes qt " contacts ")
      && strIncludes p "/contacts" then b + 8 else b
  let b := if (strIncludes qt " company " || strIncludes qt " companies "
      || strIncludes qt " customer " || strIncludes qt " customers ")
      && strIncludes p "/companies" then b + 8 else b
  let b := if (strIncludes qt " activity " || strIncludes qt " activities "
      || strIncludes qt " call " || strIncludes qt " meeting ")
      && strIncludes p "/activities" then b + 8 else b
  let b := if (strIncludes qt " task " || strIncludes qt " tasks ")
      && strIncludes p "/tasks" then b + 8 else b
  let b := if (strIncludes qt " location " || strIncludes qt " locations ")
      && strIncludes p "/locations" then b + 8 else b
  b

/-- The searchable text of a method: name, verb, path template,
description and path parameter names, joined and normalized. -/
def searchText (m : MethodSpec) : String :=
  normalize (joinWith " "
    [m.name, m.method, m.pathTemplate, m.description, joinWith " " m.pathParams])

/-- `score` of the methods-search route.  An exact substring match of
the (non-empty) query in the searchable text short-circuits with 30;
otherwise 3 points per query term of length at least 3 that is not a
stopword and occurs in the searchable text, plus the entity boost, plus
intent/verb alignment bonuses and penalties, plus the control-plane
de-prioritization, with `Math.max(0, _)` guarding the subtractions. -/
def score (q : String) (m : MethodSpec) : Int :=
  let hay := searchText m
  if hay == "" then 0
  else if q != "" && strIncludes hay q then 30
  else
    let s : Int := 3 * ((strSplitOn q (fun c => c = ' ')).filter (fun t =>
      t != "" && decide (3 ≤ t.length) && !(STOPWORDS.contains t)
        && strIncludes hay t)).length
    let s := s + entityBoost q m
    let qt := " " ++ q ++ " "
    let mm := strUpper m.method
    let isCreate := strIncludes qt " add " || strIncludes qt " create "
      || strIncludes qt " new " || strIncludes qt " make "
      || strIncludes qt " log " || strIncludes qt " record "
    let isUpdate := strIncludes qt " update " || strIncludes qt " edit "
      || strIncludes qt " change " || strIncludes qt " correct "
      || strIncludes qt " fix "
    let isDelete := strIncludes qt " delete " || strIncludes qt " remove "
    let isList := strIncludes qt " list " || strIncludes qt " show "
      || strIncludes qt " view " || strIncludes qt " current view "
      || strIncludes qt " on this page " || strIncludes qt " on this screen "
    let s := if isDelete && mm == "DELETE" then s + 10 else s
    let s := if (isUpdate || isCreate) && (mm == "PUT" || mm == "PATCH") then s + 6 else s
    let s := if isCreate && mm == "POST" then s + 8 else s
    let s := if (isCreate || isUpdate || isDelete) && mm == "GET" then max 0 (s - 2) else s
    let s := if isList && mm == "GET" then s + 3 else s
    let s := if strStartsWith m.pathTemplate "/api/ai/" then max 0 (s - 3) else s
    s

/-! ### Endpoint discovery cache (`ai-endpoints.ts`)

The filesystem walk and doc extraction are IO; they are abstracted as a
parameter `scan`, the endpoint list a full re-scan would produce
(unchanged route files means an unchanged `scan` value).  The module's
global `cached` cell becomes explicit state, extended with a scan
counter instrumenting how many re-scans were performed. -/

/-- `DiscoveredEndpoint` of `ai-endpoints.ts`. -/
structure DiscoveredEndpoint where
  pathTemplate : String
  methods : List String
  summary : Option String
  methodDocs : Option (List (String × String))
deriving DecidableEq, Repr

/-- The module-level `cached` value: build timestamp (the source's `at`
field, a keyword in Lean) plus endpoint list. -/
structure DiscoveryCache where
  builtAt : Int
  endpoints : List DiscoveredEndpoint
deriving DecidableEq, Repr

/-- Explicit discovery state: optional cache plus an instrumented count
of full re-scans. -/
structure DiscoveryState where
  cached : Option DiscoveryCache
  scanCount : Nat
deriving DecidableEq, Repr

/-- `discoverAppApiEndpoints` cache logic: a call within 30000 ms of the
cached build returns the cached endpoints unchanged; otherwise a full
re-scan replaces the cache as a whole and bumps the scan counter. -/
def discoverAppApiEndpoints (scan : List DiscoveredEndpoint) (now : Int)
    (st : DiscoveryState) : List DiscoveredEndpoint × DiscoveryState :=
  match st.cached with
  | some c =>
    if now - c.builtAt < 30000 then (c.endpoints, st)
    else (scan, ⟨some ⟨now, scan⟩, st.scanCount + 1⟩)
  | none => (scan, ⟨some ⟨now, scan⟩, st.scanCount + 1⟩)

/-- `BulkBody.isErr` discriminates the validation-error variant. -/
def BulkBody.isErr : BulkBody → Bool
  | .err _ => true
  | _ => false

end AiCore

namespace AiCore

/-! ### Claims about the relevance scorer and the catalog names -/

/-- C3 counterexample: for the method `GET /api/crm/companies` with
description `zzz`, the exact-substring query `zzz` scores the fixed
bonus 30, but the eleven-term query built from the same word scores 33
from partial term matches alone (no exact substring match), so the
exact-match score is not strictly greater than every partial
accumulation. -/
theorem exact_match_not_dominant :
    strIncludes (searchText ⟨"n", "GET", "/api/crm/companies", "zzz", [], none, true⟩)
      "zzz" = true
    ∧ score "zzz" ⟨"n", "GET", "/api/crm/companies", "zzz", [], none, true⟩ = 30
    ∧ strIncludes (searchText ⟨"n", "GET", "/api/crm/companies", "zzz", [], none, true⟩)
      "zzz zzz zzz zzz zzz zzz zzz zzz zzz zzz zzz" = false
    ∧ score "zzz zzz zzz zzz zzz zzz zzz zzz zzz zzz zzz"
      ⟨"n", "GET", "/api/crm/companies", "zzz", [], none, true⟩ = 33
    ∧ ¬ ((30 : Int) > 33) := by
  refine ⟨by decide, by decide, by decide, by decide, by decide⟩

/-- C3 amended: an exact substring match of the non-empty query inside a
method's non-empty searchable text short-circuits all other signals and
scores exactly the fixed bonus 30 (which partial accumulations can
nevertheless exceed). -/
theorem exact_match_short_circuit (q : String) (m : MethodSpec)
    (hhay : searchText m ≠ "") (hq : q ≠ "")
    (hincl : strIncludes (searchText m) q = true) :
    score q m = 30 := by
  unfold score
  simp only [beq_eq_false_iff_ne, ne_eq, bne_iff_ne]
  rw [if_neg (by simp [hhay]), if_pos (by simp [hq, hincl])]

/-- C3 witness: the short-circuit theorem applied to the concrete method
and query of the counterexample. -/
theorem exact_match_short_circuit_witness :
    score "zzz" ⟨"n", "GET", "/api/crm/companies", "zzz", [], none, true⟩ = 30 :=
  exact_match_short_circuit "zzz" ⟨"n", "GET", "/api/crm/companies", "zzz", [], none, true⟩
    (by decide) (by decide) (by decide)

/-- C4 counterexample: two distinct path templates normalize to the same
cleaned name, so name generation is not collision-free across distinct
(pathTemplate, verb) pairs. -/
theorem methodNameFor_collision :
    methodNameFor "/api/a-b" "GET" = methodNameFor "/api/a_b" "GET"
    ∧ ("/api/a-b" : String) ≠ "/api/a_b" := ⟨by decide, by decide⟩

/-- C4 amended: name generation is a pure function of (pathTemplate,
verb); for a fixed path all verbs share one prefix and differ only in
the verb suffix, and on a fixed path the map from (uppercased) verb to
name is injective; collision freedom across distinct path templates
fails. -/
theorem methodNameFor_verb_suffix :
    (∀ p : String, ∃ pre : String, ∀ v : String,
        methodNameFor p v = pre ++ "__" ++ strUpper v)
    ∧ (∀ p v1 v2 : String,
        methodNameFor p v1 = methodNameFor p v2 → strUpper v1 = strUpper v2) := by
  constructor
  · intro p
    exact ⟨"route_" ++ cleanedPath p, fun v => by
      simp [methodNameFor, String.append_assoc]⟩
  · intro p v1 v2 h
    unfold methodNameFor at h
    have hd := congrArg String.data h
    simp only [String.data_append] at hd
    exact String.ext (List.append_cancel_left hd)

/-- C4 witness: the verb-injectivity half applied at a concrete path and
two concrete verb spellings whose generated names coincide. -/
theorem methodNameFor_verb_suffix_witness : strUpper "get" = strUpper "GET" :=
  methodNameFor_verb_suffix.2 "/api/x" "get" "GET" (by decide)

/-- C5 counterexample: for the query naming the company entity, the
wrong-entity method `GET /api/crm/contacts` (whose description carries
the generic terms) receives no penalty (`entityBoost = 0`) and outranks
the same-entity method `GET /api/crm/companies`, 9 to 8. -/
theorem entity_mismatch_not_penalized :
    entityBoost "company data summary report"
      ⟨"b", "GET", "/api/crm/contacts", "data summary report", [], none, true⟩ = 0
    ∧ score "company data summary report"
      ⟨"b", "GET", "/api/crm/contacts", "data summary report", [], none, true⟩ = 9
    ∧ score "company data summary report"
      ⟨"a", "GET", "/api/crm/companies", "", [], none, true⟩ = 8
    ∧ ¬ ((9 : Int) ≤ 8) := by
  refine ⟨by decide, by decide, by decide, by decide⟩

/-- C5 amended: the entity heuristic is boost-only.  `entityBoost` never
subtracts: it is a sum of per-entity `+8` boosts and is therefore
non-negative for every query and method; no mismatch penalty exists. -/
theorem entityBoost_nonneg (q : String) (m : MethodSpec) : 0 ≤ entityBoost q m := by
  unfold entityBoost
  dsimp only
  split_ifs <;> norm_num

/-! ### Claims about the action broker single call -/

/-- C1 counterexample: with auto-approve-writes disabled (empty
environment) a POST with `approved: true` is executed immediately
instead of returning a draft — the gate tests
`!approved && (forceApprove || !autoApprove)`, so `approved` alone
bypasses the policy switches. -/
theorem approved_write_executes_despite_policy :
    autoApproveWritesEnabled ⟨none, none, none⟩ = false
    ∧ httpRequest ⟨none, none, none⟩ (fun _ _ => 200)
        ⟨some "POST", some "/api/x", none, none, true⟩
      = ⟨200, .exec 200 "POST" "/api/x" true⟩ := ⟨by decide, by decide⟩

/-- C1 amended: for a mutating verb on a valid path, a draft is returned
iff `approved` is false and (auto-approve-writes is disabled, or the
verb is DELETE with auto-approve-delete disabled); in particular
`approved: true` always executes, regardless of both policy switches. -/
theorem approval_gate_iff (env : Env) (fetch : String → String → Nat)
    (mopt : Option String) (path : String) (q b : Option String) (ap : Bool)
    (h1 : strStartsWith path "/api/" = true)
    (h2 : strStartsWith path "/api/ai/" = false)
    (hm : normMethod mopt ≠ "GET") :
    httpRequest env fetch ⟨mopt, some path, q, b, ap⟩
        = ⟨200, .draft "http.request" ⟨normMethod mopt, path, q, b, false⟩⟩
      ↔ ap = false
        ∧ (autoApproveWritesEnabled env = false
            ∨ (normMethod mopt = "DELETE" ∧ autoApproveDeleteEnabled env = false)) := by
  have hbne : (normMethod mopt != "GET") = true := by simp [bne_iff_ne, hm]
  unfold httpRequest
  simp only [Option.getD_some, h1, h2, Bool.not_true, Bool.not_false, if_false, if_true,
    Bool.false_eq_true, hbne, Bool.true_and]
  cases hap : ap <;> cases hw : autoApproveWritesEnabled env
    <;> cases hd : autoApproveDeleteEnabled env
    <;> by_cases hdel : normMethod mopt = "DELETE"
    <;> simp [hdel, HttpResp.mk.injEq]

/-- C1 witness: the amended gate applied at a concrete POST on a valid
path with approval not granted and writes not auto-approved. -/
theorem approval_gate_iff_witness :
    httpRequest ⟨none, none, none⟩ (fun _ _ => 200)
        ⟨some "POST", some "/api/x", none, none, false⟩
      = ⟨200, .draft "http.request" ⟨"POST", "/api/x", none, none, false⟩⟩ := by
  have h := (approval_gate_iff ⟨none, none, none⟩ (fun _ _ => 200)
    (some "POST") "/api/x" none none false (by decide) (by decide) (by decide)).mpr
    ⟨rfl, Or.inl (by decide)⟩
  simpa using h

/-- C6: a DELETE on a valid path with `approved: false`, auto-approve-
writes enabled and auto-approve-delete disabled returns the draft and
does not execute. -/
theorem delete_still_requires_approval (env : Env) (fetch : String → String → Nat)
    (path : String) (q b : Option String)
    (hw : autoApproveWritesEnabled env = true)
    (hd : autoApproveDeleteEnabled env = false)
    (h1 : strStartsWith path "/api/" = true)
    (h2 : strStartsWith path "/api/ai/" = false) :
    httpRequest env fetch ⟨some "DELETE", some path, q, b, false⟩
      = ⟨200, .draft "http.request" ⟨"DELETE", path, q, b, false⟩⟩ := by
  have hm : normMethod (some "DELETE") = "DELETE" := by decide
  unfold httpRequest
  simp [Option.getD_some, h1, h2, hm, hw, hd]

/-- C6 witness: the development-posture environment enables
auto-approve-writes while auto-approve-delete stays disabled; a DELETE
of `/api/x` still drafts. -/
theorem delete_still_requires_approval_witness :
    httpRequest ⟨some "development", none, none⟩ (fun _ _ => 200)
        ⟨some "DELETE", some "/api/x", none, none, false⟩
      = ⟨200, .draft "http.request" ⟨"DELETE", "/api/x", none, none, false⟩⟩ :=
  delete_still_requires_approval ⟨some "development", none, none⟩ (fun _ _ => 200)
    "/api/x" none none (by decide) (by decide) (by decide) (by decide)

/-- C7: a path outside the public `/api/` prefix, or inside the broker's
own `/api/ai/` control plane, is rejected with status 400 and an error
body, and the response does not depend on the upstream application at
all (no network call is attempted), for every method, approval flag and
policy environment. -/
theorem invalid_path_rejected (env : Env) (fetch fetch2 : String → String → Nat)
    (inp : SingleInput)
    (h : strStartsWith (inp.path.getD "") "/api/" = false
        ∨ strStartsWith (inp.path.getD "") "/api/ai/" = true) :
    (httpRequest env fetch inp).status = 400
    ∧ (∃ msg, (httpRequest env fetch inp).body = .err msg)
    ∧ httpRequest env fetch inp = httpRequest env fetch2 inp := by
  rcases h with h | h
  · unfold httpRequest
    simp [h]
  · by_cases hA : strStartsWith (inp.path.getD "") "/api/" = true
    · unfold httpRequest
      simp [hA, h]
    · unfold httpRequest
      simp [Bool.not_eq_true] at hA
      simp [hA]

/-- C7 witness: an absent path (normalized to the empty string) is
rejected with 400 and the result is independent of the upstream. -/
theorem invalid_path_rejected_witness :
    (httpRequest ⟨none, none, none⟩ (fun _ _ => 200)
        ⟨some "GET", none, none, none, false⟩).status = 400
    ∧ (∃ msg, (httpRequest ⟨none, none, none⟩ (fun _ _ => 200)
        ⟨some "GET", none, none, none, false⟩).body = .err msg)
    ∧ httpRequest ⟨none, none, none⟩ (fun _ _ => 200)
        ⟨some "GET", none, none, none, false⟩
      = httpRequest ⟨none, none, none⟩ (fun _ _ => 500)
        ⟨some "GET", none, none, none, false⟩ :=
  invalid_path_rejected ⟨none, none, none⟩ (fun _ _ => 200) (fun _ _ => 500)
    ⟨some "GET", none, none, none, false⟩ (Or.inl (by decide))

/-- C10: an absent or unrecognized method is coerced to GET; the call on
a valid path executes immediately for every approval flag and policy
environment, no request body is attached, and the result reports method
GET. -/
theorem invalid_method_coerced_to_get (env : Env) (fetch : String → String → Nat)
    (mopt : Option String) (path : String) (q b : Option String) (ap : Bool)
    (h1 : strStartsWith path "/api/" = true)
    (h2 : strStartsWith path "/api/ai/" = false)
    (hm : mopt = none
        ∨ ∃ s, mopt = some s
            ∧ (["GET", "POST", "PUT", "PATCH", "DELETE"].contains (strUpper s)) = false) :
    httpRequest env fetch ⟨mopt, some path, q, b, ap⟩
      = ⟨200, .exec (fetch "GET" path) "GET" path false⟩ := by
  have hget : normMethod mopt = "GET" := by
    rcases hm with h | ⟨s, hs, hc⟩
    · rw [h]; decide
    · have hnc : ¬ (["GET", "POST", "PUT", "PATCH", "DELETE"].contains (strUpper s) = true) := by
        rw [hc]; simp
      rw [hs]; unfold normMethod; dsimp only; rw [if_neg hnc]
  unfold httpRequest
  simp [Option.getD_some, h1, h2, hget]

/-- C10 witness: the unrecognized method `FOO` with `approved: false`
and an empty policy environment executes immediately as a GET with no
body attached. -/
theorem invalid_method_coerced_to_get_witness :
    httpRequest ⟨none, none, none⟩ (fun _ _ => 204)
        ⟨some "FOO", some "/api/x", none, none, false⟩
      = ⟨200, .exec 204 "GET" "/api/x" false⟩ :=
  invalid_method_coerced_to_get ⟨none, none, none⟩ (fun _ _ => 204)
    (some "FOO") "/api/x" none none false (by decide) (by decide)
    (Or.inr ⟨"FOO", rfl, by decide⟩)

/-! ### Claims about the action broker batch call -/

/-- The bulk loop executes every entry in order as an already-approved
single call; nothing is skipped after a failure. -/
theorem runBulk_results (env : Env) (fetch : String → String → Nat) :
    ∀ reqs : List BulkEntry,
      (runBulk env fetch reqs).1
        = reqs.map (fun r =>
            (httpRequest env fetch
              ⟨r.method, r.path, r.query, r.body, true⟩).body)
  | [] => rfl
  | r :: rest => by
      simp only [runBulk, List.map_cons]
      exact congrArg _ (runBulk_results env fetch rest)

/-- Every entry is counted exactly once, as ok or as failed. -/
theorem runBulk_count (env : Env) (fetch : String → String → Nat) :
    ∀ reqs : List BulkEntry,
      (runBulk env fetch reqs).2.1 + (runBulk env fetch reqs).2.2 = reqs.length
  | [] => rfl
  | r :: rest => by
      have ih := runBulk_count env fetch rest
      simp [runBulk]
      split
      · rw [Nat.add_right_comm, ih]
      · rw [← Nat.add_assoc, ih]

/-- C2: the concrete batch [A(succeeds), B(fails), C(succeeds)] yields
ok=2, failed=1, aggregate status 207 and three results in request
order; and in general an executed batch returns one result per request
in order (a failure never stops later entries), counts every entry as
ok or failed, and reports aggregate status 200 iff no entry failed,
207 otherwise. -/
theorem bulk_partial_failure :
    (httpBulk ⟨none, none, none⟩ (fun _ p => if p = "/api/b" then 500 else 200)
        [⟨some "GET", some "/api/a", none, none⟩,
         ⟨some "GET", some "/api/b", none, none⟩,
         ⟨some "GET", some "/api/c", none, none⟩] true
      = ⟨200, .done 207 2 1
          [.exec 200 "GET" "/api/a" false,
           .exec 500 "GET" "/api/b" false,
           .exec 200 "GET" "/api/c" false]⟩)
    ∧ ∀ (env : Env) (fetch : String → String → Nat) (reqs : List BulkEntry)
        (approved : Bool) (st ok failed : Nat) (results : List RespBody),
        httpBulk env fetch reqs approved = ⟨200, .done st ok failed results⟩ →
          results = reqs.map (fun r =>
              (httpRequest env fetch ⟨r.method, r.path, r.query, r.body, true⟩).body)
          ∧ ok + failed = reqs.length
          ∧ st = (if failed = 0 then 200 else 207)
          ∧ (st = 200 ↔ failed = 0) := by
  constructor
  · decide
  · intro env fetch reqs approved st ok failed results heq
    unfold httpBulk at heq
    by_cases h0 : reqs.length = 0
    · rw [if_pos h0] at heq
      simp at heq
    by_cases h50 : reqs.length > 50
    · rw [if_neg h0, if_pos h50] at heq
      simp at heq
    rw [if_neg h0, if_neg h50] at heq
    simp only [] at heq
    split at heq
    · simp at heq
    · simp only [BulkResp.mk.injEq, BulkBody.done.injEq, true_and] at heq
      obtain ⟨hst, hok, hfail, hres⟩ := heq
      subst hok hfail hres
      subst hst
      refine ⟨runBulk_results env fetch reqs, runBulk_count env fetch reqs, rfl, ?_⟩
      split <;> simp_all

/-- C2 witness: the general batch accounting applied to the concrete
three-request batch of the first conjunct. -/
theorem bulk_partial_failure_witness :
    [RespBody.exec 200 "GET" "/api/a" false,
     RespBody.exec 500 "GET" "/api/b" false,
     RespBody.exec 200 "GET" "/api/c" false]
      = [⟨some "GET", some "/api/a", none, none⟩,
         ⟨some "GET", some "/api/b", none, none⟩,
         (⟨some "GET", some "/api/c", none, none⟩ : BulkEntry)].map (fun r =>
          (httpRequest ⟨none, none, none⟩ (fun _ p => if p = "/api/b" then 500 else 200)
            ⟨r.method, r.path, r.query, r.body, true⟩).body)
    ∧ 2 + 1 = 3
    ∧ 207 = (if (1 : Nat) = 0 then 200 else 207)
    ∧ ((207 : Nat) = 200 ↔ (1 : Nat) = 0) := by
  have h := bulk_partial_failure.2 ⟨none, none, none⟩
    (fun _ p => if p = "/api/b" then 500 else 200)
    [⟨some "GET", some "/api/a", none, none⟩,
     ⟨some "GET", some "/api/b", none, none⟩,
     ⟨some "GET", some "/api/c", none, none⟩] true 207 2 1
    [.exec 200 "GET" "/api/a" false,
     .exec 500 "GET" "/api/b" false,
     .exec 200 "GET" "/api/c" false] (by decide)
  simpa using h

/-- C8: an empty batch and a batch of more than 50 entries are rejected
with status 400 and an error body; a batch of 1 to 50 entries passes
validation and reaches the approval/execution path (status 200, body
never the error variant). -/
theorem bulk_size_validation (env : Env) (fetch : String → String → Nat)
    (reqs : List BulkEntry) (approved : Bool) :
    (reqs.length = 0 →
        httpBulk env fetch reqs approved = ⟨400, .err "requests[] is required"⟩)
    ∧ (reqs.length > 50 →
        httpBulk env fetch reqs approved = ⟨400, .err "Too many requests (max 50)"⟩)
    ∧ (1 ≤ reqs.length → reqs.length ≤ 50 →
        (httpBulk env fetch reqs approved).status = 200
        ∧ ((httpBulk env fetch reqs approved).body).isErr = false) := by
  refine ⟨?_, ?_, ?_⟩
  · intro h
    unfold httpBulk
    rw [if_pos h]
  · intro h
    unfold httpBulk
    rw [if_neg (by omega), if_pos h]
  · intro hl hu
    unfold httpBulk
    rw [if_neg (by omega), if_neg (by omega)]
    simp only []
    constructor
    · split <;> rfl
    · split <;> rfl

/-- C8 witness: a batch of exactly 50 GET requests is accepted. -/
theorem bulk_size_validation_witness :
    (httpBulk ⟨none, none, none⟩ (fun _ _ => 200)
        (List.replicate 50 ⟨some "GET", some "/api/x", none, none⟩) true).status = 200
    ∧ ((httpBulk ⟨none, none, none⟩ (fun _ _ => 200)
        (List.replicate 50 ⟨some "GET", some "/api/x", none, none⟩) true).body).isErr
      = false :=
  (bulk_size_validation ⟨none, none, none⟩ (fun _ _ => 200)
    (List.replicate 50 ⟨some "GET", some "/api/x", none, none⟩) true).2.2
    (by decide) (by decide)

/-! ### Claim about the discovery cache -/

/-- C9: a second discovery call within 30 seconds of the cache build
returns the identical endpoint list with the state (including the scan
counter) unchanged, so no re-scan happens; a call at or past expiry
re-scans and replaces the cache as a whole, bumping the scan counter. -/
theorem discovery_cache_spec (scan : List DiscoveredEndpoint) (now1 now2 : Int)
    (st0 : DiscoveryState) :
    (∀ c, (discoverAppApiEndpoints scan now1 st0).2.cached = some c →
        now2 - c.builtAt < 30000 →
        discoverAppApiEndpoints scan now2 (discoverAppApiEndpoints scan now1 st0).2
          = ((discoverAppApiEndpoints scan now1 st0).1,
             (discoverAppApiEndpoints scan now1 st0).2))
    ∧ (∀ (st : DiscoveryState) (c : DiscoveryCache) (now : Int),
        st.cached = some c → 30000 ≤ now - c.builtAt →
        discoverAppApiEndpoints scan now st
          = (scan, ⟨some ⟨now, scan⟩, st.scanCount + 1⟩)) := by
  constructor
  · obtain ⟨cach0, n0⟩ := st0
    cases cach0 with
    | none =>
      intro c hc hlt
      simp only [discoverAppApiEndpoints] at hc
      injection hc with hc
      subst hc
      simp [discoverAppApiEndpoints, hlt]
    | some c0 =>
      by_cases h : now1 - c0.builtAt < 30000
      · intro c hc hlt
        simp only [discoverAppApiEndpoints, if_pos h] at hc
        injection hc with hc
        subst hc
        simp [discoverAppApiEndpoints, if_pos h, hlt]
      · intro c hc hlt
        simp only [discoverAppApiEndpoints, if_neg h] at hc
        injection hc with hc
        subst hc
        simp [discoverAppApiEndpoints, h, hlt]
  · intro st c now hc h
    obtain ⟨cach, n⟩ := st
    simp only at hc
    subst hc
    simp [discoverAppApiEndpoints, if_neg (not_lt.mpr h)]

/-- C9 witness: starting from an empty cache, a scan at time 1000
followed by a call at time 2000 returns the same list and leaves the
state untouched. -/
theorem discovery_cache_spec_witness :
    discoverAppApiEndpoints [⟨"/api/x", ["GET"], none, none⟩] 2000
        (discoverAppApiEndpoints [⟨"/api/x", ["GET"], none, none⟩] 1000 ⟨none, 0⟩).2
      = ((discoverAppApiEndpoints [⟨"/api/x", ["GET"], none, none⟩] 1000 ⟨none, 0⟩).1,
         (discoverAppApiEndpoints [⟨"/api/x", ["GET"], none, none⟩] 1000 ⟨none, 0⟩).2) :=
  (discovery_cache_spec [⟨"/api/x", ["GET"], none, none⟩] 1000 2000 ⟨none, 0⟩).1
    ⟨1000, [⟨"/api/x", ["GET"], none, none⟩]⟩ (by decide) (by decide)

